import Mathlib

/-
Verification of the Pipedrive Connery plugin (two actions).

Flow A is the action `getPipedriveLeadOrDealInfo`: it searches leads and
deals, scores the hits locally, fetches detail for the best match,
null-prunes the response, serializes it with two-space indentation and
truncates to 90,000 characters.

Flow B is the action `getPipedriveLeadOrDealSummary`: it searches the same
two collections, gates hits on a field match, ranks by the remote
`result_score`, and forwards the winner to an LLM summarizer.

JavaScript values reaching the scorers and the response assembler are
loosely typed: absent fields are modelled with `Option`, the JSON tree with
`JSValue`, and JS comparisons involving `undefined` (always false) with
explicit helpers.
-/

/-- A JSON-like JavaScript value as manipulated by the handler: `null` also
stands for `undefined` (the code only ever distinguishes them through
`v != null`, which rejects both). -/
inductive JSValue where
  | null : JSValue
  | bool (b : Bool) : JSValue
  | num (n : Int) : JSValue
  | str (s : String) : JSValue
  | arr (elems : List JSValue) : JSValue
  | obj (fields : List (String × JSValue)) : JSValue

/-- The record part of a search hit once unwrapped (`hit.item || hit`): the
fields the two actions read from it. Any field may be absent in the loose
JS data. -/
structure ItemRec where
  id : Option String
  title : Option String
  orgName : Option String
  personName : Option String
  result_score : Option Int
deriving DecidableEq, Repr

/-- A raw element of `response.data.items` from a Pipedrive search: the
envelope carries `result_score` and (usually) the record under `item`; the
top-level fields model direct properties for envelopes that are themselves
bare records. -/
structure Hit where
  id : Option String
  title : Option String
  orgName : Option String
  personName : Option String
  result_score : Option Int
  item : Option ItemRec
deriving DecidableEq, Repr

/-- `needle.isPrefixOf hay` on character lists. -/
def charListPrefix : List Char → List Char → Bool
  | [], _ => true
  | _ :: _, [] => false
  | c :: cs, d :: ds => c == d && charListPrefix cs ds

/-- Substring occurrence on character lists (any position). -/
def charListSubstr (needle : List Char) : List Char → Bool
  | [] => needle.isEmpty
  | d :: ds => charListPrefix needle (d :: ds) || charListSubstr needle ds

/-- JS `s.includes(sub)`. -/
def jsIncludes (s sub : String) : Bool :=
  charListSubstr sub.toList s.toList

/-- JS `s.toLowerCase()` (ASCII range, matching the data the actions see). -/
def jsToLower (s : String) : String :=
  String.mk (s.toList.map Char.toLower)

/-- JS `a > b` on numbers that may be `undefined`: any comparison against
`undefined` is false. -/
def jsGtOpt : Option Int → Option Int → Bool
  | some a, some b => a > b
  | some _, none => false
  | none, _ => false

namespace FlowA

/-- `const currentItem = item.item || item;` — unwraps the envelope, falling
back to the envelope's own fields when no `item` is present. -/
def currentItem (h : Hit) : ItemRec :=
  h.item.getD ⟨h.id, h.title, h.orgName, h.personName, h.result_score⟩

/-- `field?.toLowerCase().includes(searchTermLower)` — an absent field is
`undefined`, so the whole optional chain is falsy. -/
def fieldIncludes (field : Option String) (termLower : String) : Bool :=
  match field with
  | some f => jsIncludes (jsToLower f) termLower
  | none => false

/-- The additive local score of `findBestMatch` in `getPipedriveLeadOrDealInfo`:
title = 3, organization name = 2, person name = 1, case-insensitive. -/
def score (termLower : String) (c : ItemRec) : Int :=
  (if fieldIncludes c.title termLower then 3 else 0) +
  (if fieldIncludes c.orgName termLower then 2 else 0) +
  (if fieldIncludes c.personName termLower then 1 else 0)

/-- The reduce accumulator `{ item, score, resultScore }`. -/
structure BestAcc where
  item : Option ItemRec
  score : Int
  resultScore : Option Int
deriving DecidableEq, Repr

/-- One step of the reduce in flow A's `findBestMatch`: replace the incumbent
when the local score is strictly higher, or equal with a strictly higher
remote `result_score` (the envelope's `result_score`). -/
def step (termLower : String) (best : BestAcc) (it : Hit) : BestAcc :=
  let cur := currentItem it
  let s := score termLower cur
  if s > best.score ∨ (s = best.score ∧ jsGtOpt it.result_score best.resultScore) then
    ⟨some cur, s, it.result_score⟩
  else best

/-- Flow A's `findBestMatch`: left fold from the sentinel
`{ item: null, score: -1, resultScore: -1 }`, returning the accumulated
`.item`; an empty list yields `null`. -/
def findBestMatch (items : List Hit) (searchTerm : String) : Option ItemRec :=
  if items.isEmpty then none
  else (items.foldl (step (jsToLower searchTerm)) ⟨none, -1, some (-1)⟩).item

end FlowA

namespace FlowB

/-- JS truthiness of a possibly-undefined number: `0` and `undefined` are
falsy. -/
def rsTruthy : Option Int → Bool
  | some v => v != 0
  | none => false

/-- `(field || '').toLowerCase().includes(searchTermLower)`. -/
def fieldMatch (field : Option String) (termLower : String) : Bool :=
  jsIncludes (jsToLower (field.getD "")) termLower

/-- The admission gate of flow B's `findBestMatch`:
`titleMatch || orgMatch || personMatch`. -/
def matchesAny (termLower : String) (c : ItemRec) : Bool :=
  fieldMatch c.title termLower || fieldMatch c.orgName termLower ||
    fieldMatch c.personName termLower

/-- One step of the reduce in flow B's `findBestMatch`: an item competes only
if it matches at least one field; it displaces the incumbent only when its
`result_score` is truthy and strictly greater. -/
def step (termLower : String) (best : Option ItemRec) (current : ItemRec) :
    Option ItemRec :=
  if matchesAny termLower current then
    match best with
    | none => some current
    | some b =>
      if rsTruthy current.result_score &&
          jsGtOpt current.result_score b.result_score then
        some current
      else best
  else best

/-- Flow B's `findBestMatch` in `getPipedriveLeadOrDealSummary`, over the
already-unwrapped items (the caller maps each raw hit to `hit.item`): a
reduce from `null`. The `Array.isArray` guard always passes for a list. -/
def findBestMatch (items : List ItemRec) (searchTerm : String) :
    Option ItemRec :=
  items.foldl (step (jsToLower searchTerm)) none

end FlowB

/-- `v != null` in `removeNulls`: loose equality rejects both `null` and
`undefined` (merged in the model). -/
def isNullish : JSValue → Bool
  | .null => true
  | _ => false

/-- `typeof v === 'object'` for a value that passed the `v != null` filter:
true exactly on plain objects and arrays. -/
def isObjectLike : JSValue → Bool
  | .arr _ => true
  | .obj _ => true
  | _ => false

/-- `Object.entries` of a string: one entry per character, keyed by its
index rendered in decimal. Each value is a one-character string, so the
filter-and-map pass of `removeNulls` leaves these entries unchanged. -/
def strEntries (i : Nat) : List Char → List (String × JSValue)
  | [] => []
  | c :: cs => (toString i, JSValue.str (String.mk [c])) :: strEntries (i + 1) cs

mutual

/-- `removeNulls` from the handler of `getPipedriveLeadOrDealInfo`:
`Object.fromEntries(Object.entries(obj).filter(([_, v]) => v != null)
.map(([k, v]) => [k, typeof v === 'object' ? removeNulls(v) : v]))`.
`Object.entries` of an array yields its elements keyed by their decimal
indices, so an array comes back as a plain object. The handler only ever
passes it the `info` object and, recursively, non-null members; on scalars
`Object.entries` yields no entries (on a string, its characters), and the
unreachable `null` argument (where JS would throw) is totalized to `{}`. -/
def removeNulls : JSValue → JSValue
  | .null => .obj []
  | .bool _ => .obj []
  | .num _ => .obj []
  | .str s => .obj (strEntries 0 s.toList)
  | .arr elems => .obj (pruneElems 0 elems)
  | .obj fields => .obj (pruneEntries fields)

/-- The filter-and-map pass of `removeNulls` over an object's entries, fused
into one traversal: drop a `null`/`undefined` value, recurse into an object
or array value, keep any other value as it is. -/
def pruneEntries : List (String × JSValue) → List (String × JSValue)
  | [] => []
  | (k, v) :: rest =>
    if isNullish v then pruneEntries rest
    else (k, if isObjectLike v then removeNulls v else v) :: pruneEntries rest

/-- The same pass over an array's `Object.entries`, whose keys are the
elements' decimal indices (`i` is the index of the first element given). -/
def pruneElems : Nat → List JSValue → List (String × JSValue)
  | _, [] => []
  | i, v :: rest =>
    if isNullish v then pruneElems (i + 1) rest
    else (toString i, if isObjectLike v then removeNulls v else v) ::
      pruneElems (i + 1) rest

end

/-- Hexadecimal digit for `\uXXXX` escapes. -/
def hexDigit (n : Nat) : Char :=
  if n < 10 then Char.ofNat (48 + n) else Char.ofNat (87 + n)

/-- JSON escaping of one character, as `JSON.stringify` renders strings. -/
def escapeChar (c : Char) : String :=
  if c = '"' then "\\\""
  else if c = '\\' then "\\\\"
  else if c = '\n' then "\\n"
  else if c = '\r' then "\\r"
  else if c = '\t' then "\\t"
  else if c.toNat < 32 then
    "\\u00" ++ String.mk [hexDigit (c.toNat / 16), hexDigit (c.toNat % 16)]
  else String.mk [c]

/-- A JSON string literal. -/
def jsonQuote (s : String) : String :=
  "\"" ++ String.join (s.toList.map escapeChar) ++ "\""

/-- `n` spaces. -/
def indentPad (n : Nat) : String := String.mk (List.replicate n ' ')

mutual

/-- `JSON.stringify(v, null, 2)` rendered at indentation depth `ind` (the
handler calls it at depth 0): objects and arrays open a line per member,
each indented two further spaces. -/
def jsonStringify (ind : Nat) : JSValue → String
  | .null => "null"
  | .bool b => if b then "true" else "false"
  | .num n => toString n
  | .str s => jsonQuote s
  | .arr [] => "[]"
  | .arr (x :: xs) =>
    "[\n" ++ indentPad (ind + 2) ++ jsonStringify (ind + 2) x ++
      jsonElemsRest (ind + 2) xs ++ "\n" ++ indentPad ind ++ "]"
  | .obj [] => "\x7b\x7d"
  | .obj ((k, v) :: fs) =>
    "\x7b\n" ++ indentPad (ind + 2) ++ jsonQuote k ++ ": " ++
      jsonStringify (ind + 2) v ++ jsonMembersRest (ind + 2) fs ++ "\n" ++
      indentPad ind ++ "\x7d"

/-- The remaining elements of a non-empty array, each preceded by a comma
and a newline. -/
def jsonElemsRest (ind : Nat) : List JSValue → String
  | [] => ""
  | x :: xs =>
    ",\n" ++ indentPad ind ++ jsonStringify ind x ++ jsonElemsRest ind xs

/-- The remaining members of a non-empty object, each preceded by a comma
and a newline. -/
def jsonMembersRest (ind : Nat) : List (String × JSValue) → String
  | [] => ""
  | (k, v) :: fs =>
    ",\n" ++ indentPad ind ++ jsonQuote k ++ ": " ++ jsonStringify ind v ++
      jsonMembersRest ind fs

end

namespace FlowA

/-- The value a search helper resolves with (`response.data` on success, or
the catch fallback). `searchPipedriveLead`'s fallback is
`{ data: { items: [] } }` (`withItems []`), but `searchPipedriveDeal`'s is
`{ data: [] }` (`bareArray`), an array with no `items` property. -/
inductive SearchData where
  | withItems (items : List Hit) : SearchData
  | bareArray : SearchData
deriving DecidableEq, Repr

/-- `results.data?.items` — `undefined` when `data` is the bare-array
fallback. -/
def itemsOf : SearchData → Option (List Hit)
  | .withItems xs => some xs
  | .bareArray => none

/-- `results.data?.items?.length ?? 0`. -/
def foundCount (sd : SearchData) : Nat :=
  ((itemsOf sd).map List.length).getD 0

/-- `results.data?.items?.length > 0 ? findBestMatch(results.data.items,
searchTerm) : null` — the comparison with `undefined` is false. -/
def bestOf (sd : SearchData) (searchTerm : String) : Option ItemRec :=
  match itemsOf sd with
  | some xs => if xs.length > 0 then findBestMatch xs searchTerm else none
  | none => none

/-- A possibly-absent string embedded in the JSON tree (`undefined` becomes
a nullish member, later stripped by `removeNulls`). -/
def optStrJS : Option String → JSValue
  | some s => .str s
  | none => .null

/-- `items.slice(0, 3).map(item => ({ id: item.id, title: item.title }))` —
`item` is the raw search envelope, whose own `id` and `title` are absent on
wrapped hits. -/
def closestList (xs : List Hit) : JSValue :=
  .arr ((xs.take 3).map (fun h => .obj [("id", optStrJS h.id),
    ("title", optStrJS h.title)]))

/-- The TypeError thrown by `dealResults.data.items.slice(0, 3)` when the
deal search failed and resolved with the `{ data: [] }` fallback (no `items`
property). -/
def sliceTypeError : String :=
  "Cannot read properties of undefined (reading \x27slice\x27)"

/-- The `info` object the handler builds (lines 65-100): the deal branch is
checked first; the detail fetches are oracles from the chosen record's `id`
to the aggregated detail (`Except.error` = the fetch threw, with the thrown
message). In the fallback branch the code reads `results.data.items`
unconditionally, which throws on the deal-failure shape. -/
def infoA (searchTerm : String) (leadSD dealSD : SearchData)
    (fetchDealInfo fetchLeadInfo : Option String → Except String JSValue) :
    Except String JSValue :=
  let base := [("searchTerm", JSValue.str searchTerm),
               ("leadsFound", JSValue.num (foundCount leadSD : Int)),
               ("dealsFound", JSValue.num (foundCount dealSD : Int))]
  match bestOf dealSD searchTerm with
  | some bestDeal =>
    (fetchDealInfo bestDeal.id).map fun data =>
      .obj (base ++ [("bestMatch", .obj [("type", .str "deal"), ("data", data)])])
  | none =>
    match bestOf leadSD searchTerm with
    | some bestLead =>
      (fetchLeadInfo bestLead.id).map fun data =>
        .obj (base ++ [("bestMatch", .obj [("type", .str "lead"), ("data", data)])])
    | none =>
      match itemsOf dealSD with
      | none => .error sliceTypeError
      | some dealItems =>
        match itemsOf leadSD with
        | none => .error sliceTypeError
        | some leadItems =>
          .ok (.obj (base ++
            [("message", .str "No exact matches found."),
             ("closestMatches", .obj [("deals", closestList dealItems),
                                      ("leads", closestList leadItems)])]))

/-- `if (instructions) { responseJson = `Instructions for the following
content: ...` }` — an empty string is falsy, so no prefix then. -/
def withInstructions : Option String → String → String
  | some instr, body =>
    if instr.isEmpty then body
    else "Instructions for the following content: " ++ instr ++ "\n\n" ++ body
  | none, body => body

/-- `if (responseJson.length > 90000) responseJson =
responseJson.substring(0, 90000);` — plain character-position truncation. -/
def truncate90k (s : String) : String :=
  if s.length > 90000 then String.mk (s.toList.take 90000) else s

/-- Flow A's handler once the two searches have resolved: build `info`,
prune nulls, serialize with `JSON.stringify(·, null, 2)`, optionally prefix
the instructions, truncate; any error thrown inside the `try` is re-thrown
as `Failed to process request: ...`. -/
def handler (searchTerm : String) (instructions : Option String)
    (leadSD dealSD : SearchData)
    (fetchDealInfo fetchLeadInfo : Option String → Except String JSValue) :
    Except String String :=
  match infoA searchTerm leadSD dealSD fetchDealInfo fetchLeadInfo with
  | .error e => .error ("Failed to process request: " ++ e)
  | .ok info =>
    .ok (truncate90k (withInstructions instructions
      (jsonStringify 0 (removeNulls info))))

/-- `getLeadInfo` (lines 194-231): `primary` is the `/leads/{id}` fetch,
yielding `leadInfo.data.data`; `acts` and `notes` the two sub-fetches, each
yielding `response.data.data` (`none` = a nullish `data.data`, mapped to
`[]` by `|| []`). Each sub-fetch sits in its own try/catch: a failure is
logged and the list stays `[]`. A failed primary fetch propagates as
`Failed to fetch lead info: ...`. -/
def getLeadInfo (primary : Except String JSValue)
    (acts notes : Except String (Option (List JSValue))) :
    Except String JSValue :=
  match primary with
  | .error e => .error ("Failed to fetch lead info: " ++ e)
  | .ok leadData =>
    let activities : List JSValue :=
      match acts with
      | .ok o => o.getD []
      | .error _ => []
    let notesList : List JSValue :=
      match notes with
      | .ok o => o.getD []
      | .error _ => []
    .ok (.obj [("lead", leadData), ("activities", .arr activities),
               ("notes", .arr notesList)])

/-- `getDealInfo` (lines 233-254): the primary fetch (with
`get_all_custom_fields=true`), then activities, then notes, all inside one
try; any failure propagates as `Failed to fetch deal info: ...`. The
`data.data` payloads are embedded as-is. -/
def getDealInfo (primary acts notes : Except String JSValue) :
    Except String JSValue :=
  match primary with
  | .error e => .error ("Failed to fetch deal info: " ++ e)
  | .ok dealData =>
    match acts with
    | .error e => .error ("Failed to fetch deal info: " ++ e)
    | .ok actsData =>
      match notes with
      | .error e => .error ("Failed to fetch deal info: " ++ e)
      | .ok notesData =>
        .ok (.obj [("deal", dealData), ("activities", actsData),
                   ("notes", notesData)])

/-- The input parameter keys declared by the `getPipedriveLeadOrDealInfo`
action definition. -/
def inputParameterKeys : List String :=
  ["pipedriveCompanyDomain", "pipedriveApiKey", "instructions", "searchTerm"]

/-- Property lookup on the validated `input` record. -/
def inputLookup (input : List (String × String)) (k : String) : Option String :=
  (input.find? (fun kv => kv.1 == k)).map (fun kv => kv.2)

/-- `const { pipedriveApiKey, companyDomain, searchTerm, instructions } =
input; const fullDomain = `${companyDomain}.pipedrive.com`;` — the handler
destructures `companyDomain`, and a JS template renders an `undefined`
interpolation as the text "undefined". -/
def fullDomain (input : List (String × String)) : String :=
  (inputLookup input "companyDomain").getD "undefined" ++ ".pipedrive.com"

/-- An outbound GET as axios receives it. -/
structure HttpRequest where
  url : String
  headers : List (String × String)
  params : List (String × String)
deriving DecidableEq, Repr

/-- The GET issued by `searchPipedriveLead` (query values as axios
serializes them). -/
def searchLeadRequest (apiKey companyDomain searchTerm : String) :
    HttpRequest :=
  { url := "https://" ++ companyDomain ++ "/api/v1/leads/search",
    headers := [("x-api-token", apiKey), ("Accept", "application/json")],
    params := [("term", searchTerm), ("fields", "title,custom_fields,notes"),
               ("exact_match", "false"), ("limit", "10")] }

/-- The GET issued by `searchPipedriveDeal`. -/
def searchDealRequest (apiKey companyDomain searchTerm : String) :
    HttpRequest :=
  { url := "https://" ++ companyDomain ++ "/api/v1/deals/search",
    headers := [("x-api-token", apiKey), ("Accept", "application/json")],
    params := [("term", searchTerm), ("fields", "title,custom_fields,notes"),
               ("exact_match", "false"), ("limit", "10")] }

end FlowA

namespace FlowB

/-- What flow B's handler forwards to `generateSummary`: the matched record
spread into `summaryData`, plus the deal's recent activities in the deal
branch. -/
inductive SummaryChoice where
  | lead (record : ItemRec) : SummaryChoice
  | deal (record : ItemRec) (activities : List JSValue) : SummaryChoice

/-- Flow B's handler after the two searches (lines 81-107): `leadItems` and
`dealItems` are `results.data.items` mapped through `item => item.item`
(`none` = the `items` property was absent, as in the deal search's
`{ data: [] }` failure fallback). The lead wins only when it exists and
either no deal matched or its `result_score` is strictly greater
(comparisons against `undefined` are false); `getActivitiesForDeal` masks
its own errors, so it is a total oracle; `generateSummary` is the LLM
oracle. Any thrown error is re-thrown as `Failed to process request: ...`. -/
def handler (searchTerm : String) (leadItems dealItems : Option (List ItemRec))
    (getActivitiesForDeal : Option String → List JSValue)
    (generateSummary : SummaryChoice → Except String String) :
    Except String String :=
  let bestLead := match leadItems with
    | some xs => findBestMatch xs searchTerm
    | none => none
  let bestDeal := match dealItems with
    | some xs => findBestMatch xs searchTerm
    | none => none
  let summary : Except String SummaryChoice :=
    match bestLead with
    | some l =>
      match bestDeal with
      | none => .ok (.lead l)
      | some d =>
        if jsGtOpt l.result_score d.result_score then .ok (.lead l)
        else .ok (.deal d (getActivitiesForDeal d.id))
    | none =>
      match bestDeal with
      | some d => .ok (.deal d (getActivitiesForDeal d.id))
      | none => .error "No matching leads or deals found"
  match summary with
  | .error e => .error ("Failed to process request: " ++ e)
  | .ok choice =>
    match generateSummary choice with
    | .error e => .error ("Failed to process request: " ++ e)
    | .ok s => .ok s

end FlowB

/-- Reference selector for tie-break analysis: the earliest hit attaining
the running maximum of `result_score` under the strict JS comparison
(`jsGtOpt`), starting from incumbent `b`. -/
def firstMaxRs (b : Hit) : List Hit → Hit
  | [] => b
  | x :: t => firstMaxRs (if jsGtOpt x.result_score b.result_score then x else b) t

/-- Reference selector for flow B: the earliest unwrapped item attaining the
running maximum of `result_score` under the strict JS comparison. -/
def firstMaxRsB (b : ItemRec) : List ItemRec → ItemRec
  | [] => b
  | x :: t => firstMaxRsB (if jsGtOpt x.result_score b.result_score then x else b) t

/-- The decimal index keys of the non-null elements of an array, offset by
`i`: the keys `Object.entries` gives the elements `removeNulls` keeps. -/
def idxKeys : Nat → List JSValue → List String
  | _, [] => []
  | i, v :: rest =>
    if isNullish v then idxKeys (i + 1) rest
    else toString i :: idxKeys (i + 1) rest

/-- A deal search hit whose record title contains the term "Acme": local
score 3, remote score 1. -/
def hitTitleRs1 : Hit :=
  { id := none, title := none, orgName := none, personName := none,
    result_score := some 1,
    item := some ⟨some "d1", some "Acme Corp Renewal", none, none, none⟩ }

/-- A hit matching no field for the term "Acme", remote score 100. -/
def hitNoneRs100 : Hit :=
  { id := none, title := none, orgName := none, personName := none,
    result_score := some 100,
    item := some ⟨some "d2", some "Zoo", none, none, none⟩ }

/-- A hit matching no field for the term "q", remote score 1. -/
def hitZeroRs1 : Hit :=
  { id := none, title := none, orgName := none, personName := none,
    result_score := some 1,
    item := some ⟨some "a1", some "Alpha", none, none, none⟩ }

/-- A hit matching no field for the term "q", remote score 5. -/
def hitZeroRs5 : Hit :=
  { id := none, title := none, orgName := none, personName := none,
    result_score := some 5,
    item := some ⟨some "a2", some "Beta", none, none, none⟩ }

/-- The deal hit of the end-to-end example: title "Acme Corp Renewal",
organization "Acme Corp". -/
def acmeDealHit : Hit :=
  { id := none, title := none, orgName := none, personName := none,
    result_score := some 2,
    item := some ⟨some "301", some "Acme Corp Renewal", some "Acme Corp", none, none⟩ }

/-- The lead hit of the end-to-end example: title "Acme Contact", no
organization (its title does not contain "Acme Corp"). -/
def acmeLeadHit : Hit :=
  { id := none, title := none, orgName := none, personName := none,
    result_score := some 9,
    item := some ⟨some "lead-7", some "Acme Contact", none, none, none⟩ }

/-- An unwrapped flow B item whose title matches "acme" but that carries no
`result_score` (as real unwrapped Pipedrive items do not). -/
def bItemNoRs : ItemRec :=
  ⟨some "b1", some "Acme One", none, none, none⟩

/-- An unwrapped flow B item whose title matches "acme", `result_score` 5. -/
def bItemRs5 : ItemRec :=
  ⟨some "b2", some "Acme Two", none, none, some 5⟩

/-- An unwrapped flow B item matching nothing for the term "acme". -/
def bItemNoMatch : ItemRec :=
  ⟨some "b3", some "Zenith", none, none, some 50⟩

mutual

/-- Shape invariant of `removeNulls` output: a plain object whose member
values are non-null scalars or objects of the same shape — never an array,
never null. -/
def cleanVal : JSValue → Bool
  | .obj fs => cleanFields fs
  | .str _ => true
  | .num _ => true
  | .bool _ => true
  | .arr _ => false
  | .null => false

/-- `cleanVal` over an entry list. -/
def cleanFields : List (String × JSValue) → Bool
  | [] => true
  | (_, v) :: rest => cleanVal v && cleanFields rest

end

mutual

/-- The claim's invariant: no member of the tree, at any depth, maps to a
`null`/`undefined` value (arrays cannot occur in pruned output but are
traversed for completeness). -/
def noNullMembers : JSValue → Bool
  | .obj fs => noNullMemberFields fs
  | .arr xs => noNullMemberElems xs
  | _ => true

/-- `noNullMembers` over an object's entries, also rejecting a null value
itself. -/
def noNullMemberFields : List (String × JSValue) → Bool
  | [] => true
  | (_, v) :: rest =>
    !isNullish v && noNullMembers v && noNullMemberFields rest

/-- `noNullMembers` over an array's elements. -/
def noNullMemberElems : List JSValue → Bool
  | [] => true
  | v :: rest => noNullMembers v && noNullMemberElems rest

end

/-- A detail-fetch oracle that always succeeds with a scalar payload. -/
def okDetailOracle : Option String → Except String JSValue :=
  fun _ => .ok (.str "detail")

/-- A detail-fetch oracle returning a deal `AggregatedRecord` whose
activities list holds records at indices 0 and 2 and a null at index 1. -/
def dealDetailWithActivities : JSValue :=
  .obj [("deal", .obj [("title", .str "Acme Corp Renewal")]),
        ("activities", .arr [.obj [("subject", .str "Call")], .null,
                             .obj [("subject", .str "Mail")]]),
        ("notes", .arr [])]

/-- Oracle resolving every deal-detail fetch with
`dealDetailWithActivities`. -/
def actOracle : Option String → Except String JSValue :=
  fun _ => .ok dealDetailWithActivities

/-- The serialized no-match payload of flow A for search term "acme" with
both searches succeeding empty (pruned `closestMatches` arrays serialize as
empty objects). -/
def noMatchEmptyPayload : String :=
  "\x7b\n  \"searchTerm\": \"acme\",\n  \"leadsFound\": 0,\n  \"dealsFound\": 0,\n  \"message\": \"No exact matches found.\",\n  \"closestMatches\": \x7b\n    \"deals\": \x7b\x7d,\n    \"leads\": \x7b\x7d\n  \x7d\n\x7d"

/-- The serialized flow A payload for search term "acme", no lead hits, one
deal hit detailed by `actOracle`: every array of the response appears as a
JSON object with decimal string keys ("0", "2"), skipping the null element,
and no JSON array syntax occurs. -/
def objectKeyedPayload : String :=
  "\x7b\n  \"searchTerm\": \"acme\",\n  \"leadsFound\": 0,\n  \"dealsFound\": 1,\n  \"bestMatch\": \x7b\n    \"type\": \"deal\",\n    \"data\": \x7b\n      \"deal\": \x7b\n        \"title\": \"Acme Corp Renewal\"\n      \x7d,\n      \"activities\": \x7b\n        \"0\": \x7b\n          \"subject\": \"Call\"\n        \x7d,\n        \"2\": \x7b\n          \"subject\": \"Mail\"\n        \x7d\n      \x7d,\n      \"notes\": \x7b\x7d\n    \x7d\n  \x7d\n\x7d"

/-- Activities oracle for flow B's deal branch (no activities). -/
def bActsOracle : Option String → List JSValue := fun _ => []

/-- LLM oracle for flow B that always produces a summary. -/
def bGenOracle : FlowB.SummaryChoice → Except String String :=
  fun _ => .ok "summary"

theorem flowA_score_nonneg (tl : String) (c : ItemRec) : 0 ≤ FlowA.score tl c := by
  unfold FlowA.score
  split <;> split <;> split <;> norm_num

theorem flowA_step_item_isSome (tl : String) (acc : FlowA.BestAcc) (it : Hit)
    (h : acc.item.isSome = true) : ((FlowA.step tl acc it).item).isSome = true := by
  unfold FlowA.step
  dsimp only
  split
  · rfl
  · exact h

theorem flowA_foldl_item_isSome (tl : String) :
    ∀ (l : List Hit) (acc : FlowA.BestAcc), acc.item.isSome = true →
      ((l.foldl (FlowA.step tl) acc).item).isSome = true := by
  intro l
  induction l with
  | nil => intro acc h; simpa using h
  | cons x t ih =>
    intro acc h
    simp only [List.foldl_cons]
    exact ih _ (flowA_step_item_isSome tl acc x h)

theorem flowA_step_score (tl : String) (acc : FlowA.BestAcc) (it : Hit) :
    (FlowA.step tl acc it).score =
      max acc.score (FlowA.score tl (FlowA.currentItem it)) := by
  unfold FlowA.step
  dsimp only
  split
  case isTrue h =>
    rcases h with h | ⟨h, _⟩
    · exact (max_eq_right (le_of_lt h)).symm
    · rw [h, max_self]
  case isFalse h =>
    push_neg at h
    exact (max_eq_left h.1).symm

theorem flowA_step_replace (tl : String) (acc : FlowA.BestAcc) (it : Hit)
    (h : acc.score < FlowA.score tl (FlowA.currentItem it)) :
    FlowA.step tl acc it =
      ⟨some (FlowA.currentItem it), FlowA.score tl (FlowA.currentItem it),
        it.result_score⟩ := by
  unfold FlowA.step
  dsimp only
  rw [if_pos (Or.inl h)]

theorem flowA_step_keep (tl : String) (acc : FlowA.BestAcc) (it : Hit)
    (h : FlowA.score tl (FlowA.currentItem it) < acc.score) :
    FlowA.step tl acc it = acc := by
  unfold FlowA.step
  dsimp only
  rw [if_neg]
  rintro (hgt | ⟨heq, _⟩)
  · exact absurd hgt (not_lt.mpr h.le)
  · exact absurd heq (ne_of_lt h)

theorem flowA_foldl_score_lt (tl : String) (c : Int) :
    ∀ (l : List Hit) (acc : FlowA.BestAcc), acc.score < c →
      (∀ j ∈ l, FlowA.score tl (FlowA.currentItem j) < c) →
      (l.foldl (FlowA.step tl) acc).score < c := by
  intro l
  induction l with
  | nil => intro acc h _; simpa using h
  | cons x t ih =>
    intro acc h hall
    simp only [List.foldl_cons]
    refine ih _ ?_ ?_
    · rw [flowA_step_score]
      exact max_lt h (hall x (by simp))
    · intro j hj
      exact hall j (by simp [hj])

theorem flowA_foldl_keep (tl : String) :
    ∀ (l : List Hit) (acc : FlowA.BestAcc),
      (∀ j ∈ l, FlowA.score tl (FlowA.currentItem j) < acc.score) →
      l.foldl (FlowA.step tl) acc = acc := by
  intro l
  induction l with
  | nil => intro acc _; rfl
  | cons x t ih =>
    intro acc hall
    simp only [List.foldl_cons]
    rw [flowA_step_keep tl acc x (hall x (by simp))]
    exact ih acc (fun j hj => hall j (by simp [hj]))

theorem flowA_step_tie (tl : String) (s : Int) (b x : Hit)
    (hx : FlowA.score tl (FlowA.currentItem x) = s) :
    FlowA.step tl ⟨some (FlowA.currentItem b), s, b.result_score⟩ x =
      if jsGtOpt x.result_score b.result_score then
        ⟨some (FlowA.currentItem x), s, x.result_score⟩
      else ⟨some (FlowA.currentItem b), s, b.result_score⟩ := by
  unfold FlowA.step
  dsimp only
  rw [hx]
  by_cases hgt : jsGtOpt x.result_score b.result_score = true
  · rw [if_pos (Or.inr ⟨rfl, hgt⟩), if_pos hgt]
  · rw [if_neg ?_, if_neg hgt]
    rintro (hlt | ⟨_, hb⟩)
    · exact lt_irrefl _ hlt
    · exact hgt hb

theorem flowA_foldl_tie (tl : String) (s : Int) :
    ∀ (t : List Hit) (b : Hit),
      (∀ j ∈ t, FlowA.score tl (FlowA.currentItem j) = s) →
      t.foldl (FlowA.step tl) ⟨some (FlowA.currentItem b), s, b.result_score⟩ =
        ⟨some (FlowA.currentItem (firstMaxRs b t)), s,
          (firstMaxRs b t).result_score⟩ := by
  intro t
  induction t with
  | nil => intro b _; rfl
  | cons x t ih =>
    intro b hall
    have hx : FlowA.score tl (FlowA.currentItem x) = s := hall x (by simp)
    simp only [List.foldl_cons, firstMaxRs]
    rw [flowA_step_tie tl s b x hx]
    by_cases hgt : jsGtOpt x.result_score b.result_score = true
    · rw [if_pos hgt, if_pos hgt]
      exact ih x (fun j hj => hall j (by simp [hj]))
    · rw [if_neg hgt, if_neg hgt]
      exact ih b (fun j hj => hall j (by simp [hj]))

theorem firstMaxRs_fixed :
    ∀ (t : List Hit) (b : Hit),
      (∀ j ∈ t, jsGtOpt j.result_score b.result_score = false) →
      firstMaxRs b t = b := by
  intro t
  induction t with
  | nil => intro b _; rfl
  | cons x t ih =>
    intro b hall
    have hx := hall x (by simp)
    simp only [firstMaxRs, hx, Bool.false_eq_true, if_false]
    exact ih b (fun j hj => hall j (by simp [hj]))

/-- C1: in flow A's scorer (`findBestMatch`) the locally computed additive
score (title substring = 3, organization name = 2, person name = 1,
case-insensitive) is the primary ranking key: a candidate of local score 3
with remote `result_score` 1 beats a candidate of local score 0 with remote
`result_score` 100, whichever order the two arrive in. -/
theorem flowA_local_score_dominates_remote (searchTerm : String) (x y : Hit)
    (hx : FlowA.score (jsToLower searchTerm) (FlowA.currentItem x) = 3)
    (hxr : x.result_score = some 1)
    (hy : FlowA.score (jsToLower searchTerm) (FlowA.currentItem y) = 0)
    (hyr : y.result_score = some 100) :
    FlowA.findBestMatch [x, y] searchTerm = some (FlowA.currentItem x) ∧
    FlowA.findBestMatch [y, x] searchTerm = some (FlowA.currentItem x) := by
  constructor
  · unfold FlowA.findBestMatch
    rw [if_neg (by simp)]
    simp only [List.foldl_cons, List.foldl_nil]
    rw [flowA_step_replace (jsToLower searchTerm) ⟨none, -1, some (-1)⟩ x
        (by simp only [hx]; norm_num)]
    rw [flowA_step_keep (jsToLower searchTerm)
        ⟨some (FlowA.currentItem x),
          FlowA.score (jsToLower searchTerm) (FlowA.currentItem x),
          x.result_score⟩ y (by simp only [hx, hy]; norm_num)]
  · unfold FlowA.findBestMatch
    rw [if_neg (by simp)]
    simp only [List.foldl_cons, List.foldl_nil]
    rw [flowA_step_replace (jsToLower searchTerm) ⟨none, -1, some (-1)⟩ y
        (by simp only [hy]; norm_num)]
    rw [flowA_step_replace (jsToLower searchTerm)
        ⟨some (FlowA.currentItem y),
          FlowA.score (jsToLower searchTerm) (FlowA.currentItem y),
          y.result_score⟩ x (by simp only [hx, hy]; norm_num)]

/-- C1 witness at concrete hits: a title match (local 3, remote 1) beats a
non-match (local 0, remote 100) in both orders. -/
theorem flowA_local_score_dominates_remote_witness :
    FlowA.findBestMatch [hitTitleRs1, hitNoneRs100] "Acme" =
      some (FlowA.currentItem hitTitleRs1) ∧
    FlowA.findBestMatch [hitNoneRs100, hitTitleRs1] "Acme" =
      some (FlowA.currentItem hitTitleRs1) :=
  flowA_local_score_dominates_remote "Acme" hitTitleRs1 hitNoneRs100
    (by decide) (by decide) (by decide) (by decide)

/-- C2 counterexample: in a two-item list where both items have local score
0 for the term "q", the fold returns the second item (higher
`result_score`), not the first — so "the first item is still returned" as
the claim states it fails. -/
theorem flowA_allzero_not_first_cex :
    FlowA.score (jsToLower "q") (FlowA.currentItem hitZeroRs1) = 0 ∧
    FlowA.score (jsToLower "q") (FlowA.currentItem hitZeroRs5) = 0 ∧
    FlowA.findBestMatch [hitZeroRs1, hitZeroRs5] "q" =
      some (FlowA.currentItem hitZeroRs5) ∧
    FlowA.currentItem hitZeroRs5 ≠ FlowA.currentItem hitZeroRs1 := by
  decide

/-- C2 (amended): flow A's scorer is the left fold from the sentinel
`{score: -1, resultScore: -1}` implementing the two-key cascade: (1) an
item whose local score strictly exceeds every other item's is returned;
(2) when all items tie on local score, the winner is the earliest item
attaining the running maximum of `result_score` — a strictly higher remote
score displaces the incumbent, a full tie keeps the earlier item; (3) in an
all-zero-score list the first item is returned provided no later item has a
strictly higher `result_score` (score 0 beats the sentinel); and (4) a
non-empty list never yields null. -/
theorem flowA_tiebreak_cascade (searchTerm : String) :
    (∀ (l1 l2 : List Hit) (i : Hit),
      (∀ j ∈ l1 ++ l2,
        FlowA.score (jsToLower searchTerm) (FlowA.currentItem j) <
          FlowA.score (jsToLower searchTerm) (FlowA.currentItem i)) →
      FlowA.findBestMatch (l1 ++ i :: l2) searchTerm =
        some (FlowA.currentItem i)) ∧
    (∀ (x : Hit) (t : List Hit),
      (∀ j ∈ x :: t,
        FlowA.score (jsToLower searchTerm) (FlowA.currentItem j) =
          FlowA.score (jsToLower searchTerm) (FlowA.currentItem x)) →
      FlowA.findBestMatch (x :: t) searchTerm =
        some (FlowA.currentItem (firstMaxRs x t))) ∧
    (∀ (x : Hit) (t : List Hit),
      (∀ j ∈ x :: t,
        FlowA.score (jsToLower searchTerm) (FlowA.currentItem j) = 0) →
      (∀ j ∈ t, jsGtOpt j.result_score x.result_score = false) →
      FlowA.findBestMatch (x :: t) searchTerm = some (FlowA.currentItem x)) ∧
    (∀ (x : Hit) (t : List Hit),
      FlowA.findBestMatch (x :: t) searchTerm ≠ none) := by
  have hsent : ∀ c : ItemRec, (-1 : Int) <
      FlowA.score (jsToLower searchTerm) c :=
    fun c => lt_of_lt_of_le (by norm_num) (flowA_score_nonneg _ c)
  have part2 : ∀ (x : Hit) (t : List Hit),
      (∀ j ∈ x :: t,
        FlowA.score (jsToLower searchTerm) (FlowA.currentItem j) =
          FlowA.score (jsToLower searchTerm) (FlowA.currentItem x)) →
      FlowA.findBestMatch (x :: t) searchTerm =
        some (FlowA.currentItem (firstMaxRs x t)) := by
    intro x t hall
    unfold FlowA.findBestMatch
    rw [if_neg (by simp)]
    simp only [List.foldl_cons]
    rw [flowA_step_replace _ _ _ (hsent _)]
    rw [flowA_foldl_tie (jsToLower searchTerm)
      (FlowA.score (jsToLower searchTerm) (FlowA.currentItem x)) t x
      (fun j hj => hall j (List.mem_cons_of_mem _ hj))]
  refine ⟨?_, part2, ?_, ?_⟩
  · intro l1 l2 i hall
    unfold FlowA.findBestMatch
    rw [if_neg (by simp)]
    rw [List.foldl_append]
    simp only [List.foldl_cons]
    have hacc : (l1.foldl (FlowA.step (jsToLower searchTerm))
        ⟨none, -1, some (-1)⟩).score <
        FlowA.score (jsToLower searchTerm) (FlowA.currentItem i) :=
      flowA_foldl_score_lt _ _ l1 _ (hsent _)
        (fun j hj => hall j (List.mem_append_left _ hj))
    rw [flowA_step_replace _ _ _ hacc]
    rw [flowA_foldl_keep _ l2 _ ?_]
    intro j hj
    exact hall j (List.mem_append_right _ hj)
  · intro x t hzero hnogt
    have h2 := part2 x t (fun j hj => by rw [hzero j hj, hzero x (by simp)])
    rw [h2, firstMaxRs_fixed t x hnogt]
  · intro x t
    unfold FlowA.findBestMatch
    rw [if_neg (by simp)]
    simp only [List.foldl_cons]
    rw [flowA_step_replace _ _ _ (hsent _)]
    have := flowA_foldl_item_isSome (jsToLower searchTerm) t
      ⟨some (FlowA.currentItem x),
        FlowA.score (jsToLower searchTerm) (FlowA.currentItem x),
        x.result_score⟩ rfl
    exact Option.isSome_iff_ne_none.mp this

/-- C2 witness: the cascade at concrete inputs — an all-zero-score list
keeps its first item when no later item carries a higher remote score. -/
theorem flowA_tiebreak_cascade_witness :
    FlowA.findBestMatch [hitZeroRs5, hitZeroRs1] "q" =
      some (FlowA.currentItem hitZeroRs5) :=
  (flowA_tiebreak_cascade "q").2.2.1 hitZeroRs5 [hitZeroRs1]
    (by decide) (by decide)

/-- C5: detail aggregation is asymmetric between leads and deals: a failed
primary fetch propagates as an error naming the kind; a failed lead
activities or notes sub-fetch is caught and replaced by an empty list (the
request still succeeds); a failed deal activities or notes sub-fetch
propagates as a fatal error. -/
theorem detail_aggregation_asymmetry :
    (∀ (e : String) (a n : Except String (Option (List JSValue))),
      FlowA.getLeadInfo (.error e) a n =
        .error ("Failed to fetch lead info: " ++ e)) ∧
    (∀ (d : JSValue) (e1 e2 : String),
      FlowA.getLeadInfo (.ok d) (.error e1) (.error e2) =
        .ok (.obj [("lead", d), ("activities", .arr []), ("notes", .arr [])])) ∧
    (∀ (d : JSValue) (e : String) (n : Except String (Option (List JSValue))),
      FlowA.getLeadInfo (.ok d) (.error e) n =
        FlowA.getLeadInfo (.ok d) (.ok (some [])) n) ∧
    (∀ (d : JSValue) (e : String) (a : Except String (Option (List JSValue))),
      FlowA.getLeadInfo (.ok d) a (.error e) =
        FlowA.getLeadInfo (.ok d) a (.ok (some []))) ∧
    (∀ (e : String) (a n : Except String JSValue),
      FlowA.getDealInfo (.error e) a n =
        .error ("Failed to fetch deal info: " ++ e)) ∧
    (∀ (d : JSValue) (e : String) (n : Except String JSValue),
      FlowA.getDealInfo (.ok d) (.error e) n =
        .error ("Failed to fetch deal info: " ++ e)) ∧
    (∀ (d a : JSValue) (e : String),
      FlowA.getDealInfo (.ok d) (.ok a) (.error e) =
        .error ("Failed to fetch deal info: " ++ e)) := by
  refine ⟨?_, ?_, ?_, ?_, ?_, ?_, ?_⟩ <;> intros <;> rfl

/-- C7: the final flow A output string (after the optional instructions
prefix) is truncated by character position to exactly 90,000 characters
when longer, returned unchanged when at most 90,000 characters long; hence
a successful handler invocation never returns more than 90,000
characters. -/
theorem flowA_truncation (s : String) :
    (s.length ≤ 90000 → FlowA.truncate90k s = s) ∧
    (90000 < s.length →
      FlowA.truncate90k s = String.mk (s.toList.take 90000) ∧
      (FlowA.truncate90k s).length = 90000) ∧
    (∀ (searchTerm : String) (instructions : Option String)
        (leadSD dealSD : FlowA.SearchData)
        (fd fl : Option String → Except String JSValue) (out : String),
      FlowA.handler searchTerm instructions leadSD dealSD fd fl = .ok out →
      out.length ≤ 90000) := by
  have hmk : ∀ (l : List Char), (String.mk l).length = l.length := fun _ => rfl
  have hbound : ∀ (r : String), (FlowA.truncate90k r).length ≤ 90000 := by
    intro r
    unfold FlowA.truncate90k
    split
    case isTrue h =>
      rw [hmk, List.length_take]
      exact min_le_left _ _
    case isFalse h => exact not_lt.mp h
  refine ⟨?_, ?_, ?_⟩
  · intro h
    unfold FlowA.truncate90k
    rw [if_neg (not_lt.mpr h)]
  · intro h
    unfold FlowA.truncate90k
    rw [if_pos h]
    refine ⟨rfl, ?_⟩
    rw [hmk, List.length_take]
    exact min_eq_left (le_of_lt h)
  · intro searchTerm instructions leadSD dealSD fd fl out h
    unfold FlowA.handler at h
    split at h
    · simp at h
    · rw [Except.ok.injEq] at h
      rw [← h]
      exact hbound _

/-- C7 witness: a short string is unchanged; a 90,001-character string is
cut to exactly 90,000 characters. -/
theorem flowA_truncation_witness :
    FlowA.truncate90k "ok" = "ok" ∧
    (FlowA.truncate90k (String.mk (List.replicate 90001 'a'))).length = 90000 :=
  ⟨(flowA_truncation "ok").1 (by decide),
   ((flowA_truncation (String.mk (List.replicate 90001 'a'))).2.1 (by
      rw [show (String.mk (List.replicate 90001 'a')).length =
        (List.replicate 90001 'a').length from rfl, List.length_replicate]
      norm_num)).2⟩

set_option maxRecDepth 4000 in
/-- C3 evaluation: when the deal search fails (its catch resolves with the
`{ data: [] }` fallback) and no best lead exists, the no-match branch's
`.slice` on the missing `items` property throws and the whole request
aborts — it does not return the no-match payload; when both searches
succeed with zero hits, the no-match payload (with pruned, empty
`closestMatches`) is returned. -/
theorem flowA_deal_failure_aborts :
    FlowA.handler "acme" none (.withItems []) .bareArray
      okDetailOracle okDetailOracle =
      .error ("Failed to process request: " ++
        "Cannot read properties of undefined (reading \x27slice\x27)") ∧
    FlowA.handler "acme" none (.withItems []) (.withItems [])
      okDetailOracle okDetailOracle = .ok noMatchEmptyPayload :=
  ⟨rfl, rfl⟩

/-- C9 evaluation: the action declares `pipedriveCompanyDomain`, but the
handler destructures `input.companyDomain`, so an invocation supplying the
declared key targets the host "undefined.pipedrive.com" instead of
"acme.pipedrive.com"; the remainder of the search request (path, query
parameters, `x-api-token` header) matches the specification. -/
theorem flowA_domain_key_mismatch :
    FlowA.inputParameterKeys.contains "pipedriveCompanyDomain" = true ∧
    FlowA.inputParameterKeys.contains "companyDomain" = false ∧
    FlowA.fullDomain [("pipedriveCompanyDomain", "acme"),
      ("pipedriveApiKey", "k"), ("searchTerm", "Acme Corp")] =
      "undefined.pipedrive.com" ∧
    FlowA.fullDomain [("pipedriveCompanyDomain", "acme"),
      ("pipedriveApiKey", "k"), ("searchTerm", "Acme Corp")] ≠
      "acme.pipedrive.com" ∧
    FlowA.searchLeadRequest "k" "undefined.pipedrive.com" "Acme Corp" =
      { url := "https://undefined.pipedrive.com/api/v1/leads/search",
        headers := [("x-api-token", "k"), ("Accept", "application/json")],
        params := [("term", "Acme Corp"),
                   ("fields", "title,custom_fields,notes"),
                   ("exact_match", "false"), ("limit", "10")] } ∧
    FlowA.searchDealRequest "k" "undefined.pipedrive.com" "Acme Corp" =
      { url := "https://undefined.pipedrive.com/api/v1/deals/search",
        headers := [("x-api-token", "k"), ("Accept", "application/json")],
        params := [("term", "Acme Corp"),
                   ("fields", "title,custom_fields,notes"),
                   ("exact_match", "false"), ("limit", "10")] } := by
  refine ⟨rfl, rfl, rfl, ?_, rfl, rfl⟩
  decide

theorem strEntries_clean : ∀ (i : Nat) (cs : List Char),
    cleanFields (strEntries i cs) = true
  | _, [] => rfl
  | i, c :: cs => by
    simp only [strEntries, cleanFields, cleanVal, Bool.true_and]
    exact strEntries_clean (i + 1) cs

mutual

theorem removeNulls_clean : ∀ (v : JSValue), cleanVal (removeNulls v) = true
  | .null => rfl
  | .bool _ => rfl
  | .num _ => rfl
  | .str s => strEntries_clean 0 s.toList
  | .arr xs => pruneElems_clean 0 xs
  | .obj fs => pruneEntries_clean fs

theorem pruneEntries_clean : ∀ (fs : List (String × JSValue)),
    cleanFields (pruneEntries fs) = true
  | [] => rfl
  | (k, v) :: rest => by
    simp only [pruneEntries]
    by_cases hn : isNullish v = true
    · rw [if_pos hn]
      exact pruneEntries_clean rest
    · rw [if_neg hn]
      simp only [cleanFields, Bool.and_eq_true]
      refine ⟨?_, pruneEntries_clean rest⟩
      by_cases ho : isObjectLike v = true
      · rw [if_pos ho]
        exact removeNulls_clean v
      · rw [if_neg ho]
        cases v with
        | null => exact absurd rfl hn
        | bool b => rfl
        | num n => rfl
        | str s => rfl
        | arr xs => exact absurd rfl ho
        | obj fs2 => exact absurd rfl ho

theorem pruneElems_clean : ∀ (i : Nat) (xs : List JSValue),
    cleanFields (pruneElems i xs) = true
  | _, [] => rfl
  | i, v :: rest => by
    simp only [pruneElems]
    by_cases hn : isNullish v = true
    · rw [if_pos hn]
      exact pruneElems_clean (i + 1) rest
    · rw [if_neg hn]
      simp only [cleanFields, Bool.and_eq_true]
      refine ⟨?_, pruneElems_clean (i + 1) rest⟩
      by_cases ho : isObjectLike v = true
      · rw [if_pos ho]
        exact removeNulls_clean v
      · rw [if_neg ho]
        cases v with
        | null => exact absurd rfl hn
        | bool b => rfl
        | num n => rfl
        | str s => rfl
        | arr xs2 => exact absurd rfl ho
        | obj fs2 => exact absurd rfl ho

end

mutual

theorem removeNulls_fixed_obj : ∀ (v : JSValue), cleanVal v = true →
    isObjectLike v = true → removeNulls v = v
  | .obj fs, h, _ => by
    rw [show removeNulls (JSValue.obj fs) = JSValue.obj (pruneEntries fs)
      from rfl]
    rw [pruneEntries_fixed fs h]
  | .arr _, h, _ => by exact absurd h (by simp [cleanVal])
  | .null, h, _ => by exact absurd h (by simp [cleanVal])
  | .bool _, _, ho => by exact absurd ho (by simp [isObjectLike])
  | .num _, _, ho => by exact absurd ho (by simp [isObjectLike])
  | .str _, _, ho => by exact absurd ho (by simp [isObjectLike])

theorem pruneEntries_fixed : ∀ (fs : List (String × JSValue)),
    cleanFields fs = true → pruneEntries fs = fs
  | [], _ => rfl
  | (k, v) :: rest, h => by
    have hv : cleanVal v = true := by
      simp only [cleanFields, Bool.and_eq_true] at h
      exact h.1
    have hr : cleanFields rest = true := by
      simp only [cleanFields, Bool.and_eq_true] at h
      exact h.2
    have hn : ¬ (isNullish v = true) := by
      cases v <;> first
        | exact Bool.false_ne_true
        | exact absurd hv Bool.false_ne_true
    simp only [pruneEntries]
    rw [if_neg hn]
    rw [pruneEntries_fixed rest hr]
    by_cases ho : isObjectLike v = true
    · rw [if_pos ho, removeNulls_fixed_obj v hv ho]
    · rw [if_neg ho]

end

theorem removeNulls_is_obj : ∀ (v : JSValue),
    ∃ fs, removeNulls v = JSValue.obj fs := by
  intro v
  cases v <;> exact ⟨_, rfl⟩

mutual

theorem cleanVal_noNull : ∀ (v : JSValue), cleanVal v = true →
    noNullMembers v = true
  | .obj fs, h => cleanFields_noNull fs h
  | .str _, _ => rfl
  | .num _, _ => rfl
  | .bool _, _ => rfl
  | .arr _, h => by exact absurd h (by simp [cleanVal])
  | .null, h => by exact absurd h (by simp [cleanVal])

theorem cleanFields_noNull : ∀ (fs : List (String × JSValue)),
    cleanFields fs = true → noNullMemberFields fs = true
  | [], _ => rfl
  | (k, v) :: rest, h => by
    simp only [cleanFields, Bool.and_eq_true] at h
    have h1 := cleanVal_noNull v h.1
    have h2 := cleanFields_noNull rest h.2
    have hn : isNullish v = false := by
      cases v <;> first
        | rfl
        | (exact absurd h.1 (by simp [cleanVal]))
    simp [noNullMemberFields, h1, h2, hn]

end

/-- C8: the null-pruning function is idempotent — pruning an already-pruned
value returns it unchanged — and its output contains no member bound to a
null or undefined value at any nesting depth. -/
theorem removeNulls_idempotent_nullfree (v : JSValue) :
    removeNulls (removeNulls v) = removeNulls v ∧
    noNullMembers (removeNulls v) = true := by
  have hc := removeNulls_clean v
  obtain ⟨fs, hfs⟩ := removeNulls_is_obj v
  constructor
  · rw [hfs]
    rw [hfs] at hc
    exact removeNulls_fixed_obj (JSValue.obj fs) hc rfl
  · exact cleanVal_noNull _ hc

set_option maxRecDepth 8000 in
/-- C10: applied to an array, `removeNulls` returns a plain object whose
keys are the decimal indices of the non-null elements; consequently every
array nested in a flow A response serializes as a JSON object with string
index keys rather than a JSON array — shown end-to-end on a response whose
activities array (with a null hole) comes out as members "0" and "2" and
whose payload contains no array bracket at all. -/
theorem flowA_arrays_become_objects :
    (∀ (xs : List JSValue),
      removeNulls (JSValue.arr xs) = JSValue.obj (pruneElems 0 xs)) ∧
    (∀ (i : Nat) (xs : List JSValue),
      (pruneElems i xs).map Prod.fst = idxKeys i xs) ∧
    FlowA.handler "acme" none (.withItems []) (.withItems [hitZeroRs1])
      actOracle okDetailOracle = .ok objectKeyedPayload ∧
    jsIncludes objectKeyedPayload "\"0\": " = true ∧
    jsIncludes objectKeyedPayload "\"2\": " = true ∧
    objectKeyedPayload.toList.contains '[' = false := by
  refine ⟨fun xs => rfl, ?_, rfl, by decide, by decide, by decide⟩
  intro i xs
  induction xs generalizing i with
  | nil => rfl
  | cons v rest ih =>
    simp only [pruneElems, idxKeys]
    by_cases hn : isNullish v = true
    · rw [if_pos hn, if_pos hn]
      exact ih (i + 1)
    · rw [if_neg hn, if_neg hn]
      rw [List.map_cons]
      rw [ih (i + 1)]

/-- C4: whenever the deal search returned items and its best match's detail
fetch succeeds, the handler takes the deal branch — `bestMatch.type` is
"deal" even though a best lead also exists — and `leadsFound`/`dealsFound`
are the raw item counts of the two searches; instantiated on the
end-to-end example (deal "Acme Corp Renewal" with organization "Acme Corp"
scoring 3+2=5, lead "Acme Contact" scoring 0 for the term "Acme Corp"). -/
theorem flowA_deal_preferred :
    (∀ (searchTerm : String) (leadXs dealXs : List Hit)
        (fd fl : Option String → Except String JSValue)
        (w : ItemRec) (d : JSValue),
      leadXs ≠ [] → dealXs ≠ [] →
      FlowA.findBestMatch dealXs searchTerm = some w →
      fd w.id = .ok d →
      FlowA.infoA searchTerm (.withItems leadXs) (.withItems dealXs) fd fl =
        .ok (.obj [("searchTerm", .str searchTerm),
                   ("leadsFound", .num (leadXs.length : Int)),
                   ("dealsFound", .num (dealXs.length : Int)),
                   ("bestMatch", .obj [("type", .str "deal"),
                                       ("data", d)])])) ∧
    FlowA.infoA "Acme Corp" (.withItems [acmeLeadHit])
      (.withItems [acmeDealHit]) okDetailOracle okDetailOracle =
      .ok (.obj [("searchTerm", .str "Acme Corp"),
                 ("leadsFound", .num 1), ("dealsFound", .num 1),
                 ("bestMatch", .obj [("type", .str "deal"),
                                     ("data", .str "detail")])]) ∧
    FlowA.score (jsToLower "Acme Corp") (FlowA.currentItem acmeDealHit) = 5 ∧
    FlowA.score (jsToLower "Acme Corp") (FlowA.currentItem acmeLeadHit) = 0 := by
  refine ⟨?_, rfl, by decide, by decide⟩
  intro searchTerm leadXs dealXs fd fl w d hlne hdne hw hfd
  have hbo : FlowA.bestOf (FlowA.SearchData.withItems dealXs) searchTerm =
      some w := by
    unfold FlowA.bestOf FlowA.itemsOf
    dsimp only
    rw [if_pos (show dealXs.length > 0 from List.length_pos.mpr hdne)]
    exact hw
  unfold FlowA.infoA
  rw [hbo]
  dsimp only
  rw [hfd]
  rfl

/-- C4 witness: one lead hit and one deal hit, the deal's detail fetch
succeeding — the deal branch is taken with both counts equal to 1. -/
theorem flowA_deal_preferred_witness :
    FlowA.infoA "Acme" (.withItems [hitZeroRs1]) (.withItems [hitTitleRs1])
      okDetailOracle okDetailOracle =
      .ok (.obj [("searchTerm", .str "Acme"), ("leadsFound", .num 1),
                 ("dealsFound", .num 1),
                 ("bestMatch", .obj [("type", .str "deal"),
                                     ("data", .str "detail")])]) :=
  flowA_deal_preferred.1 "Acme" [hitZeroRs1] [hitTitleRs1]
    okDetailOracle okDetailOracle (FlowA.currentItem hitTitleRs1)
    (.str "detail") (by decide) (by decide) (by decide) rfl

theorem jsGtOpt_some_false (a b : Int) (h : a ≤ b) :
    jsGtOpt (some a) (some b) = false := by
  simp only [jsGtOpt, decide_eq_false_iff_not]
  omega

theorem flowB_step_nomatch (tl : String) (acc : Option ItemRec) (x : ItemRec)
    (hm : FlowB.matchesAny tl x = false) : FlowB.step tl acc x = acc := by
  unfold FlowB.step
  rw [if_neg (by rw [hm]; exact Bool.false_ne_true)]

theorem flowB_step_none_match (tl : String) (x : ItemRec)
    (hm : FlowB.matchesAny tl x = true) : FlowB.step tl none x = some x := by
  unfold FlowB.step
  rw [if_pos hm]

theorem flowB_step_some_match (tl : String) (b x : ItemRec)
    (hm : FlowB.matchesAny tl x = true) :
    FlowB.step tl (some b) x =
      if FlowB.rsTruthy x.result_score &&
          jsGtOpt x.result_score b.result_score then some x
      else some b := by
  unfold FlowB.step
  rw [if_pos hm]

theorem flowB_step_admits (tl : String) (acc : Option ItemRec) (x : ItemRec)
    (hacc : ∀ b, acc = some b → FlowB.matchesAny tl b = true) :
    ∀ c, FlowB.step tl acc x = some c → FlowB.matchesAny tl c = true := by
  intro c hc
  by_cases hm : FlowB.matchesAny tl x = true
  · cases acc with
    | none =>
      rw [flowB_step_none_match tl x hm] at hc
      obtain rfl : x = c := by injection hc
      exact hm
    | some a =>
      rw [flowB_step_some_match tl a x hm] at hc
      by_cases hcond : (FlowB.rsTruthy x.result_score &&
          jsGtOpt x.result_score a.result_score) = true
      · rw [if_pos hcond] at hc
        obtain rfl : x = c := by injection hc
        exact hm
      · rw [if_neg hcond] at hc
        obtain rfl : a = c := by injection hc
        exact hacc a rfl
  · have hm' : FlowB.matchesAny tl x = false := by simpa using hm
    rw [flowB_step_nomatch tl acc x hm'] at hc
    exact hacc c hc

theorem flowB_foldl_admitted (tl : String) :
    ∀ (l : List ItemRec) (acc : Option ItemRec),
      (∀ b, acc = some b → FlowB.matchesAny tl b = true) →
      ∀ b, l.foldl (FlowB.step tl) acc = some b →
        FlowB.matchesAny tl b = true := by
  intro l
  induction l with
  | nil => intro acc hacc b hb; exact hacc b hb
  | cons x t ih =>
    intro acc hacc b hb
    simp only [List.foldl_cons] at hb
    exact ih (FlowB.step tl acc x) (flowB_step_admits tl acc x hacc) b hb

theorem flowB_foldl_unadmitted (tl : String) :
    ∀ (l : List ItemRec),
      (∀ j ∈ l, FlowB.matchesAny tl j = false) →
      l.foldl (FlowB.step tl) none = none := by
  intro l
  induction l with
  | nil => intro _; rfl
  | cons x t ih =>
    intro hall
    simp only [List.foldl_cons]
    rw [flowB_step_nomatch tl none x (hall x (by simp))]
    exact ih (fun j hj => hall j (by simp [hj]))

theorem flowB_unadmitted_none (searchTerm : String) (xs : List ItemRec)
    (h : ∀ j ∈ xs, FlowB.matchesAny (jsToLower searchTerm) j = false) :
    FlowB.findBestMatch xs searchTerm = none :=
  flowB_foldl_unadmitted (jsToLower searchTerm) xs h

theorem flowB_foldl_ranked (tl : String) :
    ∀ (l : List ItemRec) (b : ItemRec) (rb : Int),
      b.result_score = some rb → 0 ≤ rb →
      (∀ j ∈ l, FlowB.matchesAny tl j = true →
        ∃ r, j.result_score = some r ∧ 0 ≤ r) →
      l.foldl (FlowB.step tl) (some b) =
        some (firstMaxRsB b (l.filter (FlowB.matchesAny tl))) := by
  intro l
  induction l with
  | nil => intro b rb hb hrb hall; rfl
  | cons x t ih =>
    intro b rb hb hrb hall
    simp only [List.foldl_cons]
    by_cases hm : FlowB.matchesAny tl x = true
    · obtain ⟨rx, hx1, hx2⟩ := hall x (by simp) hm
      have hcomp : (FlowB.rsTruthy x.result_score &&
          jsGtOpt x.result_score b.result_score) =
          jsGtOpt x.result_score b.result_score := by
        rw [hx1, hb]
        by_cases hgt : rb < rx
        · have hne : rx ≠ 0 := by omega
          simp [FlowB.rsTruthy, jsGtOpt, hgt, hne]
        · simp [FlowB.rsTruthy, jsGtOpt, hgt]
      rw [flowB_step_some_match tl b x hm, hcomp]
      simp only [List.filter_cons, hm, if_true, firstMaxRsB]
      by_cases hgt : jsGtOpt x.result_score b.result_score = true
      · rw [if_pos hgt, if_pos hgt]
        exact ih x rx hx1 hx2 (fun j hj hmj => hall j (by simp [hj]) hmj)
      · rw [if_neg hgt, if_neg hgt]
        exact ih b rb hb hrb (fun j hj hmj => hall j (by simp [hj]) hmj)
    · have hm' : FlowB.matchesAny tl x = false := by simpa using hm
      rw [flowB_step_nomatch tl (some b) x hm']
      simp only [List.filter_cons, hm', Bool.false_eq_true, if_false]
      exact ih b rb hb hrb (fun j hj hmj => hall j (by simp [hj]) hmj)

theorem flowB_findBestMatch_filter (searchTerm : String) :
    ∀ (items : List ItemRec),
      (∀ j ∈ items, FlowB.matchesAny (jsToLower searchTerm) j = true →
        ∃ r, j.result_score = some r ∧ 0 ≤ r) →
      FlowB.findBestMatch items searchTerm =
        (match items.filter (FlowB.matchesAny (jsToLower searchTerm)) with
         | [] => none
         | x :: t => some (firstMaxRsB x t)) := by
  intro items
  induction items with
  | nil => intro _; rfl
  | cons x t ih =>
    intro hall
    simp only [FlowB.findBestMatch, List.foldl_cons]
    by_cases hm : FlowB.matchesAny (jsToLower searchTerm) x = true
    · rw [flowB_step_none_match _ x hm]
      obtain ⟨rx, hx1, hx2⟩ := hall x (by simp) hm
      rw [flowB_foldl_ranked (jsToLower searchTerm) t x rx hx1 hx2
        (fun j hj hmj => hall j (by simp [hj]) hmj)]
      simp only [List.filter_cons, hm, if_true]
    · have hm' : FlowB.matchesAny (jsToLower searchTerm) x = false := by
        simpa using hm
      rw [flowB_step_nomatch _ none x hm']
      have := ih (fun j hj hmj => hall j (by simp [hj]) hmj)
      simp only [FlowB.findBestMatch] at this
      rw [this]
      simp only [List.filter_cons, hm', Bool.false_eq_true, if_false]

theorem firstMaxRsB_max :
    ∀ (t : List ItemRec) (b : ItemRec) (rb : Int),
      b.result_score = some rb → 0 ≤ rb →
      (∀ j ∈ t, ∃ r, j.result_score = some r ∧ 0 ≤ r) →
      (firstMaxRsB b t = b ∨ firstMaxRsB b t ∈ t) ∧
      (∃ rm, (firstMaxRsB b t).result_score = some rm ∧ 0 ≤ rm ∧ rb ≤ rm) ∧
      (∀ j ∈ t,
        jsGtOpt j.result_score (firstMaxRsB b t).result_score = false) := by
  intro t
  induction t with
  | nil =>
    intro b rb hb hrb _
    exact ⟨Or.inl rfl, ⟨rb, hb, hrb, le_refl rb⟩, fun j hj => absurd hj (by simp)⟩
  | cons x t ih =>
    intro b rb hb hrb hall
    obtain ⟨rx, hx1, hx2⟩ := hall x (by simp)
    simp only [firstMaxRsB]
    by_cases hgt : jsGtOpt x.result_score b.result_score = true
    · rw [if_pos hgt]
      obtain ⟨hmem, ⟨rm, hrm, hrm0, hle⟩, hrest⟩ :=
        ih x rx hx1 hx2 (fun j hj => hall j (by simp [hj]))
      have hblt : rb < rx := by
        rw [hx1, hb] at hgt
        simpa [jsGtOpt] using hgt
      refine ⟨?_, ⟨rm, hrm, hrm0, by omega⟩, ?_⟩
      · rcases hmem with h | h
        · exact Or.inr (by simp [h])
        · exact Or.inr (by simp [h])
      · intro j hj
        rcases List.mem_cons.mp hj with rfl | hj'
        · rw [hx1, hrm]
          exact jsGtOpt_some_false rx rm hle
        · exact hrest j hj'
    · rw [if_neg hgt]
      obtain ⟨hmem, ⟨rm, hrm, hrm0, hle⟩, hrest⟩ :=
        ih b rb hb hrb (fun j hj => hall j (by simp [hj]))
      have hxle : rx ≤ rb := by
        rw [hx1, hb] at hgt
        simp only [jsGtOpt, decide_eq_true_eq] at hgt
        omega
      refine ⟨?_, ⟨rm, hrm, hrm0, hle⟩, ?_⟩
      · rcases hmem with h | h
        · exact Or.inl h
        · exact Or.inr (by simp [h])
      · intro j hj
        rcases List.mem_cons.mp hj with rfl | hj'
        · rw [hx1, hrm]
          exact jsGtOpt_some_false rx rm (by omega)
        · exact hrest j hj'

/-- C6 counterexample: both items pass the gate, the second carries the
unique highest `result_score` (5), yet the first — which carries none, as
real unwrapped Pipedrive items do not — is returned: the incumbent cannot
be displaced because `5 > undefined` is false, so the scorer does not
return the admitted item with the highest remote `result_score`. -/
theorem flowB_highest_rs_cex :
    FlowB.matchesAny (jsToLower "acme") bItemNoRs = true ∧
    FlowB.matchesAny (jsToLower "acme") bItemRs5 = true ∧
    bItemNoRs.result_score = none ∧
    bItemRs5.result_score = some 5 ∧
    FlowB.findBestMatch [bItemNoRs, bItemRs5] "acme" = some bItemNoRs ∧
    bItemNoRs ≠ bItemRs5 := by
  decide

/-- C6 (amended): flow B's scorer admits an item only if title,
organization name or person name contains the term case-insensitively (any
returned item passed the gate); over the admitted items it keeps the
earliest item attaining the running maximum of `result_score` under the
strict, truthiness-guarded JS comparison — which equals the admitted item
with the highest `result_score` (earliest on ties) whenever every admitted
item carries a defined, nonnegative `result_score`, while an admitted item
lacking one is never displaced; and when no item in either collection
passes the gate, flow B fails with the error "No matching leads or deals
found" (wrapped by the handler's catch) rather than producing a fallback
payload. -/
theorem flowB_gate_then_rank (searchTerm : String) :
    (∀ (items : List ItemRec) (b : ItemRec),
      FlowB.findBestMatch items searchTerm = some b →
      FlowB.matchesAny (jsToLower searchTerm) b = true) ∧
    (∀ (items : List ItemRec),
      (∀ j ∈ items, FlowB.matchesAny (jsToLower searchTerm) j = true →
        ∃ r, j.result_score = some r ∧ 0 ≤ r) →
      (items.filter (FlowB.matchesAny (jsToLower searchTerm)) = [] →
        FlowB.findBestMatch items searchTerm = none) ∧
      (∀ (x : ItemRec) (t : List ItemRec),
        items.filter (FlowB.matchesAny (jsToLower searchTerm)) = x :: t →
        FlowB.findBestMatch items searchTerm = some (firstMaxRsB x t) ∧
        (∀ j ∈ items, FlowB.matchesAny (jsToLower searchTerm) j = true →
          jsGtOpt j.result_score (firstMaxRsB x t).result_score = false))) ∧
    (∀ (leadItems dealItems : Option (List ItemRec))
        (acts : Option String → List JSValue)
        (gen : FlowB.SummaryChoice → Except String String),
      (∀ xs, leadItems = some xs →
        ∀ j ∈ xs, FlowB.matchesAny (jsToLower searchTerm) j = false) →
      (∀ xs, dealItems = some xs →
        ∀ j ∈ xs, FlowB.matchesAny (jsToLower searchTerm) j = false) →
      FlowB.handler searchTerm leadItems dealItems acts gen =
        .error ("Failed to process request: " ++
          "No matching leads or deals found")) ∧
    jsIncludes "Failed to process request: No matching leads or deals found"
      "No matching leads or deals found" = true := by
  refine ⟨?_, ?_, ?_, by decide⟩
  · intro items b hb
    exact flowB_foldl_admitted (jsToLower searchTerm) items none
      (fun c hc => by cases hc) b hb
  · intro items hrs
    have hfilter := flowB_findBestMatch_filter searchTerm items hrs
    constructor
    · intro hempty
      rw [hfilter, hempty]
    · intro x t hxt
      have hxmem : x ∈ items :=
        List.mem_of_mem_filter (l := items) (by rw [hxt]; simp)
      have hxgate : FlowB.matchesAny (jsToLower searchTerm) x = true :=
        List.of_mem_filter (l := items) (by rw [hxt]; simp)
      obtain ⟨rx, hx1, hx2⟩ := hrs x hxmem hxgate
      have htall : ∀ j ∈ t, ∃ r, j.result_score = some r ∧ 0 ≤ r := by
        intro j hj
        have hjmem : j ∈ items.filter (FlowB.matchesAny (jsToLower searchTerm)) := by
          rw [hxt]
          simp [hj]
        exact hrs j (List.mem_of_mem_filter hjmem) (List.of_mem_filter hjmem)
      obtain ⟨hmem, ⟨rm, hrm, hrm0, hle⟩, hrest⟩ :=
        firstMaxRsB_max t x rx hx1 hx2 htall
      constructor
      · rw [hfilter, hxt]
      · intro j hjmem hjgate
        have hjfilt : j ∈ x :: t := by
          rw [← hxt]
          exact List.mem_filter.mpr ⟨hjmem, hjgate⟩
        rcases List.mem_cons.mp hjfilt with rfl | hj'
        · rw [hx1, hrm]
          exact jsGtOpt_some_false rx rm hle
        · exact hrest j hj'
  · intro leadItems dealItems acts gen hlead hdeal
    have hl : (match leadItems with
        | some xs => FlowB.findBestMatch xs searchTerm
        | none => none) = none := by
      cases leadItems with
      | none => rfl
      | some xs => exact flowB_unadmitted_none searchTerm xs (hlead xs rfl)
    have hd : (match dealItems with
        | some xs => FlowB.findBestMatch xs searchTerm
        | none => none) = none := by
      cases dealItems with
      | none => rfl
      | some xs => exact flowB_unadmitted_none searchTerm xs (hdeal xs rfl)
    simp only [FlowB.handler, hl, hd]

/-- C6 witness: among one gated and one ungated item the admitted one (with
`result_score` 5) is selected; with no gated item in either collection the
handler fails with the wrapped no-match error. -/
theorem flowB_gate_then_rank_witness :
    FlowB.findBestMatch [bItemNoMatch, bItemRs5] "acme" = some bItemRs5 ∧
    FlowB.handler "acme" (some [bItemNoMatch]) none bActsOracle bGenOracle =
      .error ("Failed to process request: " ++
        "No matching leads or deals found") := by
  constructor
  · have hrs : ∀ j ∈ [bItemNoMatch, bItemRs5],
        FlowB.matchesAny (jsToLower "acme") j = true →
        ∃ r, j.result_score = some r ∧ 0 ≤ r := by
      intro j hj hm
      rcases List.mem_cons.mp hj with rfl | hj'
      · exact absurd hm (by decide)
      · rcases List.mem_cons.mp hj' with rfl | hj''
        · exact ⟨5, rfl, by norm_num⟩
        · exact absurd hj'' (by simp)
    exact (((flowB_gate_then_rank "acme").2.1 [bItemNoMatch, bItemRs5] hrs).2
      bItemRs5 [] (by decide)).1
  · exact (flowB_gate_then_rank "acme").2.2.1 (some [bItemNoMatch]) none
      bActsOracle bGenOracle
      (fun xs hxs => by cases hxs; decide)
      (fun xs hxs => Option.noConfusion hxs)
